import Mathlib

/-
Verification of the Kuhn Poker engine, equilibrium strategy, agents and
tournament runner (Python sources under src/).  The Python code is shallowly
embedded: pure functions become Lean functions, Python exceptions become
`Except GameError`, Python ints become `Int` (or `Nat` for never-negative
quantities such as the pot), Python floats in the strategy tables become `ℚ`,
and the module-level pseudo-random generator is threaded as explicit state.
-/

namespace KuhnPoker

/-- The three card ranks of `KuhnPokerGame.CARDS` in src/kuhn_poker/game.py. -/
inductive Card where
  | J
  | Q
  | K
deriving DecidableEq

/-- `KuhnPokerGame.CARD_VALUES` from src/kuhn_poker/game.py. -/
def CARD_VALUES : Card → Nat
  | Card.J => 1
  | Card.Q => 2
  | Card.K => 3

/-- The four action strings of the game, as an enumeration. -/
inductive Action where
  | CHECK
  | BET
  | CALL
  | FOLD
deriving DecidableEq

/-- The string form of an action, as used in info-set keys and dict keys. -/
def Action.str : Action → String
  | Action.CHECK => "CHECK"
  | Action.BET => "BET"
  | Action.CALL => "CALL"
  | Action.FOLD => "FOLD"

/-- The string form of a card. -/
def Card.str : Card → String
  | Card.J => "J"
  | Card.Q => "Q"
  | Card.K => "K"

/-- The `cards` dict of a hand: seat 0's card and seat 1's card. -/
structure Cards where
  c0 : Card
  c1 : Card
deriving DecidableEq

/-- Lookup `cards[p]`; in the source the dict has exactly the keys 0 and 1. -/
def Cards.get (c : Cards) (p : Int) : Card :=
  if p = 0 then c.c0 else c.c1

/-- The terminal `payoffs` dict keyed by seat 0 and seat 1. -/
structure Payoffs where
  p0 : Int
  p1 : Int
deriving DecidableEq

/-- Lookup `payoffs[p]`; in the source the dict has exactly the keys 0 and 1. -/
def Payoffs.get (p : Payoffs) (i : Int) : Int :=
  if i = 0 then p.p0 else p.p1

/-- The dict `{winner: amt, 1 - winner: -amt}` built by both payoff helpers
in src/kuhn_poker/game.py (in every reachable state `winner` is 0 or 1). -/
def mkPayoffs (winner : Int) (amt : Int) : Payoffs :=
  if winner = 0 then ⟨amt, -amt⟩ else ⟨-amt, amt⟩

/-- `GameState` from src/kuhn_poker/state.py. -/
structure GameState where
  cards : Cards
  betting_history : List Action
  pot : Nat
  current_player : Int
  is_terminal : Bool
  payoffs : Option Payoffs
deriving DecidableEq

/-- The distinct Python exceptions raised (or raisable) by the embedded code. -/
inductive GameError where
  | illegalAction
  | invalidHistory
  | notTerminal
  | missingPayoffs
  | unknownInfoSet
  | invalidCard
  | malformedInfoSet
  | emptyChoice
  | divisionByZero
  | outOfFuel
deriving DecidableEq

/-- `KuhnPokerGame.ANTE`. -/
def ANTE : Nat := 1

/-- `KuhnPokerGame.BET_SIZE`. -/
def BET_SIZE : Nat := 1

/-- `KuhnPokerGame.get_legal_actions` from src/kuhn_poker/game.py. -/
def get_legal_actions (state : GameState) : Except GameError (List Action) :=
  if state.is_terminal then Except.ok []
  else
    let history := state.betting_history
    if history.length = 0 then Except.ok [Action.CHECK, Action.BET]
    else if history.length = 1 ∧ history[0]? = some Action.CHECK then
      Except.ok [Action.CHECK, Action.BET]
    else if (history.length = 1 ∧ history[0]? = some Action.BET) ∨
            (history.length = 2 ∧ history[1]? = some Action.BET) then
      Except.ok [Action.CALL, Action.FOLD]
    else Except.error GameError.invalidHistory

/-- `KuhnPokerGame._calculate_fold_payoffs`: the non-folder wins `pot // 2`. -/
def calculate_fold_payoffs (folding_player : Int) (pot : Nat) : Payoffs :=
  mkPayoffs (1 - folding_player) ((pot / 2 : Nat) : Int)

/-- `KuhnPokerGame._get_showdown_winner`: seat 0 wins on the strictly higher
card, otherwise seat 1. -/
def get_showdown_winner (cards : Cards) : Int :=
  if CARD_VALUES (cards.get 0) > CARD_VALUES (cards.get 1) then 0 else 1

/-- `KuhnPokerGame._calculate_showdown_payoffs`: the winner gets `pot // 2`. -/
def calculate_showdown_payoffs (cards : Cards) (pot : Nat) : Payoffs :=
  mkPayoffs (get_showdown_winner cards) ((pot / 2 : Nat) : Int)

/-- `KuhnPokerGame.apply_action` from src/kuhn_poker/game.py.  The Python
code computes `new_history`, `new_pot`, the terminal flag and the payoffs and
then builds one `GameState`; here the single construction site is unfolded
into each branch of the same conditional chain (the source's redundant
`len(new_history) == 2 and` guard is implied by the list equality). -/
def apply_action (state : GameState) (action : Action) :
    Except GameError GameState :=
  match get_legal_actions state with
  | Except.error e => Except.error e
  | Except.ok legal =>
    if action ∈ legal then
      let new_history := state.betting_history ++ [action]
      let new_pot :=
        if action = Action.BET then state.pot + BET_SIZE
        else if action = Action.CALL then state.pot + BET_SIZE
        else state.pot
      if action = Action.FOLD then
        Except.ok
          { cards := state.cards, betting_history := new_history,
            pot := new_pot, current_player := state.current_player,
            is_terminal := true,
            payoffs := some (calculate_fold_payoffs state.current_player new_pot) }
      else if new_history = [Action.CHECK, Action.CHECK] then
        Except.ok
          { cards := state.cards, betting_history := new_history,
            pot := new_pot, current_player := state.current_player,
            is_terminal := true,
            payoffs := some (calculate_showdown_payoffs state.cards new_pot) }
      else if action = Action.CALL then
        Except.ok
          { cards := state.cards, betting_history := new_history,
            pot := new_pot, current_player := state.current_player,
            is_terminal := true,
            payoffs := some (calculate_showdown_payoffs state.cards new_pot) }
      else
        Except.ok
          { cards := state.cards, betting_history := new_history,
            pot := new_pot, current_player := 1 - state.current_player,
            is_terminal := false, payoffs := none }
    else Except.error GameError.illegalAction

/-- The state built by `KuhnPokerGame.start_new_hand` for a given deal. -/
def start_hand_state (cards : Cards) : GameState :=
  { cards := cards, betting_history := [], pot := 2 * ANTE,
    current_player := 0, is_terminal := false, payoffs := none }

/-- `KuhnPokerGame.get_payoff`: raises on a non-terminal state, otherwise
reads the payoffs dict (a `None` dict would raise a TypeError). -/
def get_payoff (state : GameState) (player : Int) : Except GameError Int :=
  if state.is_terminal then
    match state.payoffs with
    | some p => Except.ok (p.get player)
    | none => Except.error GameError.missingPayoffs
  else Except.error GameError.notTerminal

/-- States reachable from `start_new_hand` with a fixed deal by successful
`apply_action` steps. -/
inductive Reachable (c : Cards) : GameState → Prop where
  | start : Reachable c (start_hand_state c)
  | step {s : GameState} {a : Action} {t : GameState} :
      Reachable c s → apply_action s a = Except.ok t → Reachable c t

/-- `GameState.get_betting_string` from src/kuhn_poker/state.py. -/
def get_betting_string (s : GameState) : String :=
  String.join (s.betting_history.map Action.str)

/-- `GameState.get_info_set` from src/kuhn_poker/state.py: the acting
player's card joined with the situation suffix; histories CHECK-BET and BET
both map to the ".BET" suffix, and unmatched shapes fall back to the full
betting string. -/
def get_info_set (s : GameState) (player : Int) : String :=
  let card := (s.cards.get player).str
  match s.betting_history with
  | [] => card ++ "."
  | [a] => if a = Action.CHECK then card ++ ".CHECK" else card ++ ".BET"
  | [a, b] =>
    if [a, b] = [Action.CHECK, Action.CHECK] then card ++ ".CHECKCHECK"
    else if [a, b] = [Action.CHECK, Action.BET] then card ++ ".BET"
    else if [a, b] = [Action.BET, Action.CALL] then card ++ ".BETCALL"
    else if [a, b] = [Action.BET, Action.FOLD] then card ++ ".BETFOLD"
    else card ++ "." ++ get_betting_string s
  | _ => card ++ "." ++ get_betting_string s

/-- The semantics of Python's `info_set.split('.')` (split on every dot). -/
def split_dot (s : String) : List String :=
  (s.data.splitOn '.').map (fun cs => String.mk cs)

/-- `GTOStrategy._get_p1_strategy` from src/kuhn_poker/gto_strategy.py. -/
def get_p1_strategy (card : String) : Except GameError (List (String × ℚ)) :=
  if card = "J" then Except.ok [("CHECK", 1), ("BET", 0)]
  else if card = "Q" then Except.ok [("CHECK", 1), ("BET", 0)]
  else if card = "K" then Except.ok [("CHECK", 0), ("BET", 1)]
  else Except.error GameError.invalidCard

/-- `GTOStrategy._get_p2_facing_bet` from src/kuhn_poker/gto_strategy.py. -/
def get_p2_facing_bet (card : String) : Except GameError (List (String × ℚ)) :=
  if card = "J" then Except.ok [("CALL", 0), ("FOLD", 1)]
  else if card = "Q" then Except.ok [("CALL", 1), ("FOLD", 0)]
  else if card = "K" then Except.ok [("CALL", 1), ("FOLD", 0)]
  else Except.error GameError.invalidCard

/-- `GTOStrategy._get_p2_after_check` from src/kuhn_poker/gto_strategy.py:
the low card bluffs with the equilibrium frequency 1/3. -/
def get_p2_after_check (card : String) : Except GameError (List (String × ℚ)) :=
  if card = "J" then Except.ok [("CHECK", 2/3), ("BET", 1/3)]
  else if card = "Q" then Except.ok [("CHECK", 1), ("BET", 0)]
  else if card = "K" then Except.ok [("CHECK", 0), ("BET", 1)]
  else Except.error GameError.invalidCard

/-- `GTOStrategy.get_strategy` from src/kuhn_poker/gto_strategy.py: splits
the key on the dot (an unpack of anything but two parts raises) and
dispatches on the situation suffix. -/
def get_strategy (info_set : String) : Except GameError (List (String × ℚ)) :=
  match split_dot info_set with
  | [card, history] =>
    if history = "" then get_p1_strategy card
    else if history = "BET" then get_p2_facing_bet card
    else if history = "CHECK" then get_p2_after_check card
    else Except.error GameError.unknownInfoSet
  | _ => Except.error GameError.malformedInfoSet

/-- A distribution has total mass 1 within 1e-6 and every weight in [0,1]. -/
def dist_ok (d : List (String × ℚ)) : Prop :=
  |(d.map Prod.snd).sum - 1| ≤ 1/1000000 ∧
  ∀ p ∈ d.map Prod.snd, 0 ≤ p ∧ p ≤ 1

/-- `GTOAgent.choose_action` from src/agents/gto_agent.py.  The two library
sampling calls are embedded with an oracle index `idx`: `random.choice`
returns the element at some in-range position of its sequence (raising on an
empty one), and `random.choices` returns an element of its population; a
zero total restricted weight makes the normalisation `p / total_prob` raise
a ZeroDivisionError before any sampling. -/
def choose_action (state : GameState) (legal_actions : List String)
    (player_position : Int) (idx : Nat) : Except GameError String :=
  match get_strategy (get_info_set state player_position) with
  | Except.error e => Except.error e
  | Except.ok strategy =>
    let legal_strategy := strategy.filter (fun ap => decide (ap.1 ∈ legal_actions))
    if legal_strategy.isEmpty then
      match legal_actions with
      | [] => Except.error GameError.emptyChoice
      | x :: xs => Except.ok ((x :: xs).getD (idx % (x :: xs).length) x)
    else
      let total_prob := (legal_strategy.map Prod.snd).sum
      if total_prob = 0 then Except.error GameError.divisionByZero
      else Except.ok ((legal_strategy.map Prod.fst).getD
        (idx % legal_strategy.length) "")

/-- Modelled from the spec: the repository imports
`agents.exploitative_agent.ExploitativeAgent` (see src/agents/__init__.py and
src/tests/test_agents.py) but that source file is absent from the snapshot.
Per spec section 4.3, `OpponentModel` keeps running counts per decision point
(minimally the fold count when facing a bet) together with a configurable
minimum-sample threshold. -/
structure OpponentModel where
  opportunities : Nat
  fold_count : Nat
  min_samples : Nat
deriving DecidableEq

/-- Modelled from the spec: `OpponentModel.estimate` returns the frequentist
estimate `count/opportunities`, falling back to the neutral prior 1/2 when
the opportunity count is below the minimum-sample threshold. -/
def OpponentModel.estimate (m : OpponentModel) : ℚ :=
  if m.opportunities < m.min_samples then 1/2
  else (m.fold_count : ℚ) / (m.opportunities : ℚ)

/-- Clamp a rational to [0, 1]. -/
def clamp01 (x : ℚ) : ℚ := max 0 (min 1 x)

/-- Modelled from the spec: `ExploitativeStrategy` (spec section 4.4) —
below the minimum-sample threshold it returns exactly the equilibrium
oracle's output; with enough data it shifts the one mixed decision (low card
after the opponent checked) monotonically with the estimated fold rate,
clamped to [0,1], and passes every pure decision through unchanged. -/
def exploitative_get_strategy (m : OpponentModel) (info_set : String) :
    Except GameError (List (String × ℚ)) :=
  if m.opportunities < m.min_samples then get_strategy info_set
  else if info_set = "J.CHECK" then
    let bluff := clamp01 (1/3 + (m.estimate - 1/2))
    Except.ok [("CHECK", 1 - bluff), ("BET", bluff)]
  else get_strategy info_set

/-- A tournament participant: its dict key (`name`) and its decision
function, indexed by hand number so that internal learning state evolving
across hands is captured by the function itself. -/
structure Agent where
  name : String
  pick : Nat → GameState → Action

/-- The seat-assignment dict of `run_tournament` in
src/experiment/tournament.py: even hands seat (agent1, agent2), odd hands
seat (agent2, agent1). -/
def seat_agents (agent1 agent2 : Agent) (hand_num : Nat) : Agent × Agent :=
  if hand_num % 2 = 0 then (agent1, agent2) else (agent2, agent1)

/-- One `profits[agent_name] += payoff` update of the name-keyed dict. -/
def update_profits (profits : String → Int) (name : String) (delta : Int) :
    String → Int :=
  fun n => if n = name then profits n + delta else profits n

/-- The seated decision function for one hand: `agents[state.current_player]`
chooses. -/
def hand_pick (a0 a1 : Agent) (hand_num : Nat) : GameState → Action :=
  fun s => if s.current_player = 0 then a0.pick hand_num s else a1.pick hand_num s

/-- The `while not game.is_terminal(state)` loop of `play_hand` in
src/experiment/tournament.py; a Kuhn hand ends within three actions, the
fuel only bounds the unrolling. -/
def play_loop : Nat → (GameState → Action) → GameState →
    Except GameError GameState
  | 0, _, s => if s.is_terminal then Except.ok s else Except.error GameError.outOfFuel
  | fuel + 1, pick, s =>
    if s.is_terminal then Except.ok s
    else
      match apply_action s (pick s) with
      | Except.error e => Except.error e
      | Except.ok s2 => play_loop fuel pick s2

/-- `play_hand` from src/experiment/tournament.py, reduced to the data the
profit accumulation consumes: drive the hand from `start_new_hand` to a
terminal state and read both seats' payoffs. -/
def play_hand (pick : GameState → Action) (deal : Cards) :
    Except GameError Payoffs :=
  match play_loop 4 pick (start_hand_state deal) with
  | Except.error e => Except.error e
  | Except.ok final =>
    match get_payoff final 0 with
    | Except.error e => Except.error e
    | Except.ok pay0 =>
      match get_payoff final 1 with
      | Except.error e => Except.error e
      | Except.ok pay1 => Except.ok ⟨pay0, pay1⟩

/-- One iteration of the `for hand_num in iterator` loop of
`run_tournament`: seat the agents by parity, play the hand, and fold the
seat-indexed payoffs into the name-keyed profits dict (position 0 first,
then position 1, as the Python dict iteration does). -/
def run_hand_update (agent1 agent2 : Agent) (deals : Nat → Cards)
    (hand_num : Nat) (profits : String → Int) :
    Except GameError (String → Int) :=
  match play_hand
      (hand_pick (seat_agents agent1 agent2 hand_num).1
        (seat_agents agent1 agent2 hand_num).2 hand_num)
      (deals hand_num) with
  | Except.error e => Except.error e
  | Except.ok pay =>
    Except.ok (update_profits
      (update_profits profits (seat_agents agent1 agent2 hand_num).1.name
        (pay.get 0))
      (seat_agents agent1 agent2 hand_num).2.name (pay.get 1))

/-- The profits dict of `run_tournament` after hands 0 .. n-1, starting from
the all-zero dict `{agent1.name: 0, agent2.name: 0}`. -/
def profits_after (agent1 agent2 : Agent) (deals : Nat → Cards) :
    Nat → Except GameError (String → Int)
  | 0 => Except.ok (fun _ => 0)
  | n + 1 =>
    match profits_after agent1 agent2 deals n with
    | Except.error e => Except.error e
    | Except.ok p => run_hand_update agent1 agent2 deals n p

/-- Whether an `Except` is a success. -/
def except_is_ok {α : Type} (e : Except GameError α) : Bool :=
  match e with
  | Except.ok _ => true
  | Except.error _ => false

/-- An abstract deterministic pseudo-random generator: what the Python
`random` module is, seen as explicit state.  `seedFn` is `random.seed` (the
new state depends only on the seed) and `shuffle` is `random.shuffle`. -/
structure RNGImpl (σ : Type) where
  seedFn : Nat → σ
  shuffle : σ → List Card → List Card × σ

/-- `KuhnPokerGame.CARDS`. -/
def CARDS : List Card := [Card.J, Card.Q, Card.K]

/-- `KuhnPokerGame.__init__`: with an explicit seed the module-level
generator is reseeded, discarding its previous hidden state; with no seed
the ambient state is kept. -/
def engine_init {σ : Type} (R : RNGImpl σ) (seed : Option Nat) (g : σ) : σ :=
  match seed with
  | some s => R.seedFn s
  | none => g

/-- `KuhnPokerGame.deal_cards`: shuffle a copy of the deck and give the top
two cards to seats 0 and 1. -/
def deal_cards {σ : Type} (R : RNGImpl σ) (g : σ) : Option Cards × σ :=
  match R.shuffle g CARDS with
  | (a :: b :: _, g2) => (some ⟨a, b⟩, g2)
  | (_, g2) => (none, g2)

/-- The sequence of deals an engine produces from a generator state. -/
def deal_seq {σ : Type} (R : RNGImpl σ) : Nat → σ → List (Option Cards)
  | 0, _ => []
  | n + 1, g =>
    let d := deal_cards R g
    d.1 :: deal_seq R n d.2

/-- A concrete deal: seat 0 holds the King, seat 1 the Queen. -/
def cardsKQ : Cards := ⟨Card.K, Card.Q⟩

/-- The reachable state after BET at the start of a K-vs-Q hand. -/
def stateAfterBet : GameState :=
  { cards := cardsKQ, betting_history := [Action.BET], pot := 3,
    current_player := 1, is_terminal := false, payoffs := none }

/-- The reachable state after CHECK then BET in a K-vs-Q hand. -/
def stateCheckBet : GameState :=
  { cards := cardsKQ, betting_history := [Action.CHECK, Action.BET], pot := 3,
    current_player := 0, is_terminal := false, payoffs := none }

/-- The reachable terminal state after BET then FOLD in a K-vs-Q hand. -/
def stateBetFold : GameState :=
  { cards := cardsKQ, betting_history := [Action.BET, Action.FOLD], pot := 3,
    current_player := 1, is_terminal := true, payoffs := some ⟨1, -1⟩ }

/-- The reachable state after one CHECK in a K-vs-Q hand. -/
def stateCheck1 : GameState :=
  { cards := cardsKQ, betting_history := [Action.CHECK], pot := 2,
    current_player := 1, is_terminal := false, payoffs := none }

/-- The reachable terminal state after CHECK then CHECK in a K-vs-Q hand. -/
def stateCheckCheck : GameState :=
  { cards := cardsKQ, betting_history := [Action.CHECK, Action.CHECK], pot := 2,
    current_player := 1, is_terminal := true, payoffs := some ⟨1, -1⟩ }

/-- An unreachable state whose history ends in BET but has length three. -/
def stateLongBet : GameState :=
  { cards := cardsKQ, betting_history := [Action.CHECK, Action.CHECK, Action.BET],
    pot := 3, current_player := 0, is_terminal := false, payoffs := none }

/-- A fresh K-vs-Q hand. -/
def stateStartKQ : GameState := start_hand_state cardsKQ

/-- An always-checking tournament agent named A. -/
def agentA : Agent := ⟨"A", fun _ _ => Action.CHECK⟩

/-- An always-checking tournament agent named B. -/
def agentB : Agent := ⟨"B", fun _ _ => Action.CHECK⟩

/-- A constant K-vs-Q deal sequence. -/
def dealsKQ : Nat → Cards := fun _ => cardsKQ

/-- The full characterisation of reachable states: the nine betting
histories legal play can produce, each with its terminal flag and pot. -/
def StateInv (s : GameState) : Prop :=
  (s.betting_history = [] ∧ s.is_terminal = false ∧ s.pot = 2) ∨
  (s.betting_history = [Action.CHECK] ∧ s.is_terminal = false ∧ s.pot = 2) ∨
  (s.betting_history = [Action.BET] ∧ s.is_terminal = false ∧ s.pot = 3) ∨
  (s.betting_history = [Action.CHECK, Action.BET] ∧ s.is_terminal = false ∧
    s.pot = 3) ∨
  (s.betting_history = [Action.CHECK, Action.CHECK] ∧ s.is_terminal = true ∧
    s.pot = 2) ∨
  (s.betting_history = [Action.BET, Action.CALL] ∧ s.is_terminal = true ∧
    s.pot = 4) ∨
  (s.betting_history = [Action.BET, Action.FOLD] ∧ s.is_terminal = true ∧
    s.pot = 3) ∨
  (s.betting_history = [Action.CHECK, Action.BET, Action.CALL] ∧
    s.is_terminal = true ∧ s.pot = 4) ∨
  (s.betting_history = [Action.CHECK, Action.BET, Action.FOLD] ∧
    s.is_terminal = true ∧ s.pot = 3)

theorem mkPayoffs_sum (w amt : Int) :
    (mkPayoffs w amt).p0 + (mkPayoffs w amt).p1 = 0 := by
  unfold mkPayoffs
  split <;> simp

theorem pot_ite (a : Action) (pot : Nat) :
    (if a = Action.BET then pot + BET_SIZE
     else if a = Action.CALL then pot + BET_SIZE else pot) =
    (if a = Action.BET ∨ a = Action.CALL then pot + 1 else pot) := by
  cases a <;> simp [BET_SIZE]

theorem apply_ok_anatomy {s : GameState} {a : Action} {t : GameState}
    (h : apply_action s a = Except.ok t) :
    t.cards = s.cards ∧
    t.betting_history = s.betting_history ++ [a] ∧
    t.pot = (if a = Action.BET ∨ a = Action.CALL then s.pot + 1 else s.pot) ∧
    (t.is_terminal = true ↔
      (a = Action.FOLD ∨ a = Action.CALL ∨
        s.betting_history ++ [a] = [Action.CHECK, Action.CHECK])) ∧
    (t.is_terminal = false →
      t.payoffs = none ∧ t.current_player = 1 - s.current_player) ∧
    (t.is_terminal = true →
      t.current_player = s.current_player ∧
      t.payoffs.map (fun p => p.p0 + p.p1) = some 0) := by
  unfold apply_action at h
  split at h
  · exact absurd h (by simp)
  · simp only [pot_ite] at h
    split at h
    · split at h
      · rename_i hf
        simp only [Except.ok.injEq] at h
        subst h
        refine ⟨rfl, rfl, rfl, by simp [hf], by simp, ?_⟩
        intro _
        exact ⟨rfl, by simp [calculate_fold_payoffs, mkPayoffs_sum]⟩
      · split at h
        · rename_i hcc
          simp only [Except.ok.injEq] at h
          subst h
          refine ⟨rfl, rfl, rfl, by simp [hcc], by simp, ?_⟩
          intro _
          exact ⟨rfl, by simp [calculate_showdown_payoffs, mkPayoffs_sum]⟩
        · split at h
          · rename_i hc
            simp only [Except.ok.injEq] at h
            subst h
            refine ⟨rfl, rfl, rfl, by simp [hc], by simp, ?_⟩
            intro _
            exact ⟨rfl, by simp [calculate_showdown_payoffs, mkPayoffs_sum]⟩
          · rename_i hf hcc hc
            simp only [Except.ok.injEq] at h
            subst h
            refine ⟨rfl, rfl, rfl, by simp [hf, hc, hcc], ?_, by simp⟩
            intro _
            exact ⟨rfl, rfl⟩
    · exact absurd h (by simp)

theorem apply_mem_ok {s : GameState} {acts : List Action}
    (hacts : get_legal_actions s = Except.ok acts) {a : Action}
    (hmem : a ∈ acts) : except_is_ok (apply_action s a) = true := by
  unfold apply_action
  rw [hacts]
  simp only [if_pos hmem]
  split
  · rfl
  · split
    · rfl
    · split <;> rfl

theorem apply_not_mem {s : GameState} {acts : List Action}
    (hacts : get_legal_actions s = Except.ok acts) {a : Action}
    (hmem : a ∉ acts) :
    apply_action s a = Except.error GameError.illegalAction := by
  unfold apply_action
  rw [hacts]
  simp only [if_neg hmem]

theorem apply_ok_legal {s : GameState} {a : Action} {t : GameState}
    (h : apply_action s a = Except.ok t) :
    ∃ acts, get_legal_actions s = Except.ok acts ∧ a ∈ acts := by
  unfold apply_action at h
  split at h
  · exact absurd h (by simp)
  · rename_i legal heq
    split at h
    · rename_i hmem
      exact ⟨legal, heq, hmem⟩
    · exact absurd h (by simp)

theorem apply_ok_terminal_eq {s : GameState} {a : Action} {t : GameState}
    (h : apply_action s a = Except.ok t) :
    t.is_terminal =
      (decide (a = Action.FOLD) || decide (a = Action.CALL) ||
       decide (s.betting_history ++ [a] = [Action.CHECK, Action.CHECK])) := by
  obtain ⟨-, -, -, hiff, -, -⟩ := apply_ok_anatomy h
  rw [Bool.eq_iff_iff]
  simpa [Bool.or_eq_true, decide_eq_true_eq, or_assoc] using hiff

theorem legal_of_terminal {s : GameState} (ht : s.is_terminal = true) :
    get_legal_actions s = Except.ok [] := by
  simp [get_legal_actions, ht]

theorem legal_of_nil {s : GameState} (ht : s.is_terminal = false)
    (hh : s.betting_history = []) :
    get_legal_actions s = Except.ok [Action.CHECK, Action.BET] := by
  simp [get_legal_actions, ht, hh]

theorem legal_of_check {s : GameState} (ht : s.is_terminal = false)
    (hh : s.betting_history = [Action.CHECK]) :
    get_legal_actions s = Except.ok [Action.CHECK, Action.BET] := by
  simp [get_legal_actions, ht, hh]

theorem legal_of_bet {s : GameState} (ht : s.is_terminal = false)
    (hh : s.betting_history = [Action.BET]) :
    get_legal_actions s = Except.ok [Action.CALL, Action.FOLD] := by
  simp [get_legal_actions, ht, hh]

theorem legal_of_two_bet {s : GameState} {x : Action}
    (ht : s.is_terminal = false)
    (hh : s.betting_history = [x, Action.BET]) :
    get_legal_actions s = Except.ok [Action.CALL, Action.FOLD] := by
  simp [get_legal_actions, ht, hh]

theorem reachable_inv (c : Cards) (s : GameState) (h : Reachable c s) :
    StateInv s := by
  induction h with
  | start => exact Or.inl ⟨rfl, rfl, rfl⟩
  | step hprev happly ih =>
    obtain ⟨acts, hacts, hmem⟩ := apply_ok_legal happly
    obtain ⟨-, hh2, hp2, -, -, -⟩ := apply_ok_anatomy happly
    have hT := apply_ok_terminal_eq happly
    rcases ih with ⟨hh, ht, hp⟩ | ⟨hh, ht, hp⟩ | ⟨hh, ht, hp⟩ | ⟨hh, ht, hp⟩ |
      ⟨hh, ht, hp⟩ | ⟨hh, ht, hp⟩ | ⟨hh, ht, hp⟩ | ⟨hh, ht, hp⟩ | ⟨hh, ht, hp⟩
    · have he := hacts.symm.trans (legal_of_nil ht hh)
      injection he with he
      subst he
      simp only [List.mem_cons, List.not_mem_nil, or_false] at hmem
      rw [hh] at hh2 hT
      rcases hmem with rfl | rfl
      · exact Or.inr (Or.inl
          ⟨by simpa using hh2, by simpa using hT, by rw [hp2]; simpa using hp⟩)
      · exact Or.inr (Or.inr (Or.inl
          ⟨by simpa using hh2, by simpa using hT, by rw [hp2, hp]; simp⟩))
    · have he := hacts.symm.trans (legal_of_check ht hh)
      injection he with he
      subst he
      simp only [List.mem_cons, List.not_mem_nil, or_false] at hmem
      rw [hh] at hh2 hT
      rcases hmem with rfl | rfl
      · exact Or.inr (Or.inr (Or.inr (Or.inr (Or.inl
          ⟨by simpa using hh2, by simpa using hT, by rw [hp2]; simpa using hp⟩))))
      · exact Or.inr (Or.inr (Or.inr (Or.inl
          ⟨by simpa using hh2, by simpa using hT, by rw [hp2, hp]; simp⟩)))
    · have he := hacts.symm.trans (legal_of_bet ht hh)
      injection he with he
      subst he
      simp only [List.mem_cons, List.not_mem_nil, or_false] at hmem
      rw [hh] at hh2 hT
      rcases hmem with rfl | rfl
      · exact Or.inr (Or.inr (Or.inr (Or.inr (Or.inr (Or.inl
          ⟨by simpa using hh2, by simpa using hT, by rw [hp2, hp]; simp⟩)))))
      · exact Or.inr (Or.inr (Or.inr (Or.inr (Or.inr (Or.inr (Or.inl
          ⟨by simpa using hh2, by simpa using hT,
            by rw [hp2]; simpa using hp⟩))))))
    · have he := hacts.symm.trans (legal_of_two_bet ht hh)
      injection he with he
      subst he
      simp only [List.mem_cons, List.not_mem_nil, or_false] at hmem
      rw [hh] at hh2 hT
      rcases hmem with rfl | rfl
      · exact Or.inr (Or.inr (Or.inr (Or.inr (Or.inr (Or.inr (Or.inr (Or.inl
          ⟨by simpa using hh2, by simpa using hT, by rw [hp2, hp]; simp⟩)))))))
      · exact Or.inr (Or.inr (Or.inr (Or.inr (Or.inr (Or.inr (Or.inr (Or.inr
          ⟨by simpa using hh2, by simpa using hT,
            by rw [hp2]; simpa using hp⟩)))))))
    · have he := hacts.symm.trans (legal_of_terminal ht)
      injection he with he
      subst he
      exact absurd hmem (List.not_mem_nil _)
    · have he := hacts.symm.trans (legal_of_terminal ht)
      injection he with he
      subst he
      exact absurd hmem (List.not_mem_nil _)
    · have he := hacts.symm.trans (legal_of_terminal ht)
      injection he with he
      subst he
      exact absurd hmem (List.not_mem_nil _)
    · have he := hacts.symm.trans (legal_of_terminal ht)
      injection he with he
      subst he
      exact absurd hmem (List.not_mem_nil _)
    · have he := hacts.symm.trans (legal_of_terminal ht)
      injection he with he
      subst he
      exact absurd hmem (List.not_mem_nil _)

/-- Claim C1: for a non-terminal state and a legal action, `apply_action`
succeeds and appends the action to the history; the pot grows by exactly one
unit on BET or CALL and is unchanged on CHECK or FOLD; the result is
terminal exactly when the action is FOLD, the action is CALL, or the new
history is CHECK-CHECK; every non-terminal result flips `current_player`;
after CHECK the action BET yields a non-terminal state that hands control
back to the original checker; and an action outside the legal set fails
with the illegal-action error. -/
theorem C1_apply_action (s : GameState) (a : Action) (acts : List Action)
    (hterm : s.is_terminal = false)
    (hacts : get_legal_actions s = Except.ok acts) :
    (a ∈ acts → except_is_ok (apply_action s a) = true) ∧
    (a ∉ acts → apply_action s a = Except.error GameError.illegalAction) ∧
    (∀ t, apply_action s a = Except.ok t →
      t.betting_history = s.betting_history ++ [a] ∧
      t.pot = (if a = Action.BET ∨ a = Action.CALL then s.pot + 1 else s.pot) ∧
      (t.is_terminal = true ↔
        (a = Action.FOLD ∨ a = Action.CALL ∨
          t.betting_history = [Action.CHECK, Action.CHECK])) ∧
      (t.is_terminal = false → t.current_player = 1 - s.current_player)) ∧
    (s.betting_history = [] → ∀ t1 t2,
      apply_action s Action.CHECK = Except.ok t1 →
      apply_action t1 Action.BET = Except.ok t2 →
      t2.is_terminal = false ∧ t2.current_player = s.current_player) := by
  refine ⟨fun hmem => apply_mem_ok hacts hmem,
    fun hmem => apply_not_mem hacts hmem, ?_, ?_⟩
  · intro t ht
    obtain ⟨-, hhist, hpot, hiff, hnt, -⟩ := apply_ok_anatomy ht
    exact ⟨hhist, hpot, by rw [hhist]; exact hiff, fun hf => (hnt hf).2⟩
  · intro hnil t1 t2 h1 h2
    obtain ⟨-, hhist1, -, hiff1, hnt1, -⟩ := apply_ok_anatomy h1
    obtain ⟨-, hhist2, -, hiff2, hnt2, -⟩ := apply_ok_anatomy h2
    rw [hnil] at hhist1
    have ht1 : t1.is_terminal = false := by
      cases hx : t1.is_terminal
      · rfl
      · rcases hiff1.mp hx with h | h | h
        · exact absurd h (by decide)
        · exact absurd h (by decide)
        · rw [hnil] at h; exact absurd h (by simp)
    have ht2 : t2.is_terminal = false := by
      cases hx : t2.is_terminal
      · rfl
      · rcases hiff2.mp hx with h | h | h
        · exact absurd h (by decide)
        · exact absurd h (by decide)
        · rw [hhist1] at h; simp at h
    refine ⟨ht2, ?_⟩
    rw [(hnt2 ht2).2, (hnt1 ht1).2]
    ring

/-- Concrete instance discharging claim C1's hypotheses: at a fresh K-vs-Q
hand the action CHECK is legal and `apply_action` succeeds on it. -/
theorem C1_apply_action_witness :
    except_is_ok (apply_action stateStartKQ Action.CHECK) = true :=
  (C1_apply_action stateStartKQ Action.CHECK [Action.CHECK, Action.BET]
    rfl rfl).1 (by decide)

/-- Claim C2: every state reached by legal play from `start_new_hand` has a
payoffs dict summing to zero when terminal (fold, CHECK-CHECK showdown and
BET-CALL showdown alike), and no payoffs dict when non-terminal. -/
theorem C2_payoffs_zero_sum (c : Cards) (s : GameState)
    (h : Reachable c s) :
    (s.is_terminal = true →
      s.payoffs.map (fun pay => pay.p0 + pay.p1) = some 0) ∧
    (s.is_terminal = false → s.payoffs = none) := by
  induction h with
  | start => exact ⟨fun hx => by simp [start_hand_state] at hx, fun _ => rfl⟩
  | step _ happly _ =>
    obtain ⟨-, -, -, -, hnt, ht⟩ := apply_ok_anatomy happly
    exact ⟨fun hx => (ht hx).2, fun hx => (hnt hx).1⟩

/-- Concrete instance discharging claim C2's hypotheses: the CHECK-CHECK
showdown of a K-vs-Q hand is reachable and its payoffs sum to zero. -/
theorem C2_payoffs_zero_sum_witness :
    Option.map (fun pay => pay.p0 + pay.p1) stateCheckCheck.payoffs = some 0 :=
  (C2_payoffs_zero_sum cardsKQ stateCheckCheck
    (@Reachable.step cardsKQ stateCheck1 Action.CHECK stateCheckCheck
      (@Reachable.step cardsKQ stateStartKQ Action.CHECK stateCheck1
        Reachable.start (by rfl))
      (by rfl))).1 rfl

theorem legal_invalid {s : GameState} (ht : s.is_terminal = false)
    (h1 : s.betting_history ≠ []) (h2 : s.betting_history ≠ [Action.CHECK])
    (h3 : s.betting_history ≠ [Action.BET])
    (h4 : ∀ x, s.betting_history ≠ [x, Action.BET]) :
    get_legal_actions s = Except.error GameError.invalidHistory := by
  rcases hss : s.betting_history with - | ⟨a, tl⟩
  · exact absurd hss h1
  · rcases tl with - | ⟨b, tl2⟩
    · cases a
      · exact absurd hss h2
      · exact absurd hss h3
      · simp [get_legal_actions, ht, hss]
      · simp [get_legal_actions, ht, hss]
    · rcases tl2 with - | ⟨d, tl3⟩
      · cases b
        · simp [get_legal_actions, ht, hss]
        · exact absurd hss (h4 a)
        · simp [get_legal_actions, ht, hss]
        · simp [get_legal_actions, ht, hss]
      · simp [get_legal_actions, ht, hss]

/-- Claim C3 as stated is refuted by this unreachable state: its most recent
action is BET, yet `get_legal_actions` raises the invalid-state error instead
of returning the CALL/FOLD set, because the source only accepts a trailing
BET in histories of length one or two. -/
theorem C3_legal_actions_cex :
    stateLongBet.is_terminal = false ∧
    stateLongBet.betting_history.getLast? = some Action.BET ∧
    get_legal_actions stateLongBet = Except.error GameError.invalidHistory :=
  ⟨rfl, rfl, rfl⟩

/-- Claim C3, amended: `get_legal_actions` returns the empty set on terminal
states, the CHECK/BET set on an empty history or a single CHECK, and the
CALL/FOLD set when the history is `[BET]` or any two-action history ending
in BET; every other history shape — including longer histories even when
they end in BET — raises the invalid-state error; consequently every
reachable non-terminal state has exactly two legal actions. -/
theorem C3_legal_actions_amended (s : GameState) :
    (s.is_terminal = true → get_legal_actions s = Except.ok []) ∧
    (s.is_terminal = false →
      (s.betting_history = [] →
        get_legal_actions s = Except.ok [Action.CHECK, Action.BET]) ∧
      (s.betting_history = [Action.CHECK] →
        get_legal_actions s = Except.ok [Action.CHECK, Action.BET]) ∧
      (∀ x, (s.betting_history = [Action.BET] ∨
          s.betting_history = [x, Action.BET]) →
        get_legal_actions s = Except.ok [Action.CALL, Action.FOLD]) ∧
      ((s.betting_history ≠ [] ∧ s.betting_history ≠ [Action.CHECK] ∧
        s.betting_history ≠ [Action.BET] ∧
        (∀ x, s.betting_history ≠ [x, Action.BET])) →
        get_legal_actions s = Except.error GameError.invalidHistory)) ∧
    (∀ c, Reachable c s → s.is_terminal = false →
      ∃ acts, get_legal_actions s = Except.ok acts ∧ acts.length = 2) := by
  refine ⟨fun ht => legal_of_terminal ht, fun ht => ?_, fun c hr ht => ?_⟩
  · refine ⟨fun hh => legal_of_nil ht hh, fun hh => legal_of_check ht hh,
      ?_, ?_⟩
    · intro x hx
      rcases hx with hh | hh
      · exact legal_of_bet ht hh
      · exact legal_of_two_bet ht hh
    · intro hx
      exact legal_invalid ht hx.1 hx.2.1 hx.2.2.1 hx.2.2.2
  · rcases reachable_inv c s hr with ⟨hh, ht2, -⟩ | ⟨hh, ht2, -⟩ |
      ⟨hh, ht2, -⟩ | ⟨hh, ht2, -⟩ | ⟨-, ht2, -⟩ | ⟨-, ht2, -⟩ | ⟨-, ht2, -⟩ |
      ⟨-, ht2, -⟩ | ⟨-, ht2, -⟩
    · exact ⟨_, legal_of_nil ht hh, rfl⟩
    · exact ⟨_, legal_of_check ht hh, rfl⟩
    · exact ⟨_, legal_of_bet ht hh, rfl⟩
    · exact ⟨_, legal_of_two_bet ht hh, rfl⟩
    · exact absurd (ht.symm.trans ht2) (by decide)
    · exact absurd (ht.symm.trans ht2) (by decide)
    · exact absurd (ht.symm.trans ht2) (by decide)
    · exact absurd (ht.symm.trans ht2) (by decide)
    · exact absurd (ht.symm.trans ht2) (by decide)

/-- Concrete instance discharging amended claim C3's hypotheses: a fresh
hand offers exactly CHECK and BET. -/
theorem C3_legal_actions_amended_witness :
    get_legal_actions stateStartKQ = Except.ok [Action.CHECK, Action.BET] :=
  ((C3_legal_actions_amended stateStartKQ).2.1 rfl).1 rfl

/-- Claim C6 as stated is refuted: the BET-FOLD terminal state of a K-vs-Q
hand is reachable by legal play and its pot is 3, which is odd. -/
theorem C6_pot_parity_cex :
    Reachable cardsKQ stateBetFold ∧ stateBetFold.is_terminal = true ∧
    stateBetFold.pot % 2 = 1 :=
  ⟨@Reachable.step cardsKQ stateAfterBet Action.FOLD stateBetFold
      (@Reachable.step cardsKQ stateStartKQ Action.BET stateAfterBet
        Reachable.start (by rfl))
      (by rfl),
    rfl, rfl⟩

/-- Claim C6, amended: at every reachable terminal state the pot is even —
so the showdown payoff `pot // 2` is an exact half — except at the fold
terminals, where the pot is 3 (odd) and `pot // 2` rounds down to 1, the
folder's forfeited ante. -/
theorem C6_pot_parity_amended (c : Cards) (s : GameState) (h : Reachable c s)
    (ht : s.is_terminal = true) :
    (s.betting_history.getLast? = some Action.FOLD ∧ s.pot = 3 ∧
      s.pot / 2 = 1) ∨
    s.pot % 2 = 0 := by
  rcases reachable_inv c s h with ⟨-, ht2, -⟩ | ⟨-, ht2, -⟩ | ⟨-, ht2, -⟩ |
    ⟨-, ht2, -⟩ | ⟨hh, -, hp⟩ | ⟨hh, -, hp⟩ | ⟨hh, -, hp⟩ | ⟨hh, -, hp⟩ |
    ⟨hh, -, hp⟩
  · exact absurd (ht2.symm.trans ht) (by decide)
  · exact absurd (ht2.symm.trans ht) (by decide)
  · exact absurd (ht2.symm.trans ht) (by decide)
  · exact absurd (ht2.symm.trans ht) (by decide)
  · exact Or.inr (by rw [hp])
  · exact Or.inr (by rw [hp])
  · exact Or.inl ⟨by rw [hh]; rfl, hp, by rw [hp]⟩
  · exact Or.inr (by rw [hp])
  · exact Or.inl ⟨by rw [hh]; rfl, hp, by rw [hp]⟩

/-- Concrete instance discharging amended claim C6's hypotheses, at the
reachable CHECK-CHECK showdown of a K-vs-Q hand. -/
theorem C6_pot_parity_amended_witness :
    (stateCheckCheck.betting_history.getLast? = some Action.FOLD ∧
      stateCheckCheck.pot = 3 ∧ stateCheckCheck.pot / 2 = 1) ∨
    stateCheckCheck.pot % 2 = 0 :=
  C6_pot_parity_amended cardsKQ stateCheckCheck
    (@Reachable.step cardsKQ stateCheck1 Action.CHECK stateCheckCheck
      (@Reachable.step cardsKQ stateStartKQ Action.CHECK stateCheck1
        Reachable.start (by rfl))
      (by rfl))
    rfl

theorem dist_ok_two (k1 k2 : String) (a b : ℚ)
    (hsum : |a + b - 1| ≤ 1/1000000) (ha0 : 0 ≤ a) (ha1 : a ≤ 1)
    (hb0 : 0 ≤ b) (hb1 : b ≤ 1) : dist_ok [(k1, a), (k2, b)] := by
  constructor
  · simpa using hsum
  · intro p hp
    simp at hp
    rcases hp with rfl | rfl
    · exact ⟨ha0, ha1⟩
    · exact ⟨hb0, hb1⟩

/-- Claim C4: on all nine information sets the oracle returns exactly the
equilibrium table with bluff constant 1/3 — first to act: J and Q always
CHECK, K always BET; facing a bet: J always FOLD, Q and K always CALL;
after the opponent checked: J checks 2/3 and bets 1/3, Q always CHECK, K
always BET — and each distribution sums to 1 within 1e-6 with every
probability in [0, 1]. -/
theorem C4_gto_table :
    (get_strategy "J." = Except.ok [("CHECK", (1:ℚ)), ("BET", 0)] ∧
      dist_ok [("CHECK", (1:ℚ)), ("BET", 0)]) ∧
    (get_strategy "Q." = Except.ok [("CHECK", (1:ℚ)), ("BET", 0)] ∧
      dist_ok [("CHECK", (1:ℚ)), ("BET", 0)]) ∧
    (get_strategy "K." = Except.ok [("CHECK", (0:ℚ)), ("BET", 1)] ∧
      dist_ok [("CHECK", (0:ℚ)), ("BET", 1)]) ∧
    (get_strategy "J.BET" = Except.ok [("CALL", (0:ℚ)), ("FOLD", 1)] ∧
      dist_ok [("CALL", (0:ℚ)), ("FOLD", 1)]) ∧
    (get_strategy "Q.BET" = Except.ok [("CALL", (1:ℚ)), ("FOLD", 0)] ∧
      dist_ok [("CALL", (1:ℚ)), ("FOLD", 0)]) ∧
    (get_strategy "K.BET" = Except.ok [("CALL", (1:ℚ)), ("FOLD", 0)] ∧
      dist_ok [("CALL", (1:ℚ)), ("FOLD", 0)]) ∧
    (get_strategy "J.CHECK" = Except.ok [("CHECK", (2/3:ℚ)), ("BET", 1/3)] ∧
      dist_ok [("CHECK", (2/3:ℚ)), ("BET", 1/3)]) ∧
    (get_strategy "Q.CHECK" = Except.ok [("CHECK", (1:ℚ)), ("BET", 0)] ∧
      dist_ok [("CHECK", (1:ℚ)), ("BET", 0)]) ∧
    (get_strategy "K.CHECK" = Except.ok [("CHECK", (0:ℚ)), ("BET", 1)] ∧
      dist_ok [("CHECK", (0:ℚ)), ("BET", 1)]) :=
  ⟨⟨rfl, dist_ok_two _ _ _ _ (by norm_num) (by norm_num) (by norm_num)
      (by norm_num) (by norm_num)⟩,
   ⟨rfl, dist_ok_two _ _ _ _ (by norm_num) (by norm_num) (by norm_num)
      (by norm_num) (by norm_num)⟩,
   ⟨rfl, dist_ok_two _ _ _ _ (by norm_num) (by norm_num) (by norm_num)
      (by norm_num) (by norm_num)⟩,
   ⟨rfl, dist_ok_two _ _ _ _ (by norm_num) (by norm_num) (by norm_num)
      (by norm_num) (by norm_num)⟩,
   ⟨rfl, dist_ok_two _ _ _ _ (by norm_num) (by norm_num) (by norm_num)
      (by norm_num) (by norm_num)⟩,
   ⟨rfl, dist_ok_two _ _ _ _ (by norm_num) (by norm_num) (by norm_num)
      (by norm_num) (by norm_num)⟩,
   ⟨rfl, dist_ok_two _ _ _ _ (by norm_num) (by norm_num) (by norm_num)
      (by norm_num) (by norm_num)⟩,
   ⟨rfl, dist_ok_two _ _ _ _ (by norm_num) (by norm_num) (by norm_num)
      (by norm_num) (by norm_num)⟩,
   ⟨rfl, dist_ok_two _ _ _ _ (by norm_num) (by norm_num) (by norm_num)
      (by norm_num) (by norm_num)⟩⟩

/-- Claim C5: whenever the opponent model is below its minimum-sample
threshold, the exploitative strategy returns, on every information set,
exactly the equilibrium oracle's distribution. -/
theorem C5_exploit_fallback (m : OpponentModel) (info_set : String)
    (h : m.opportunities < m.min_samples) :
    exploitative_get_strategy m info_set = get_strategy info_set := by
  unfold exploitative_get_strategy
  rw [if_pos h]

/-- Concrete instance discharging claim C5's hypotheses: a fresh model with
zero observations and threshold five reduces to the oracle on "K.". -/
theorem C5_exploit_fallback_witness :
    exploitative_get_strategy ⟨0, 0, 5⟩ "K." = get_strategy "K." :=
  C5_exploit_fallback ⟨0, 0, 5⟩ "K." (by decide)

/-- Claim C8: for the acting player with a fixed card, the info-set key of a
state with history `[BET]` and of a state with history `[CHECK, BET]` are the
same ".BET"-suffixed key, so the oracle answers both with the identical
facing-a-bet CALL/FOLD distribution. -/
theorem C8_info_set_collapse (s1 s2 : GameState) (p q : Int)
    (h1 : s1.betting_history = [Action.BET])
    (h2 : s2.betting_history = [Action.CHECK, Action.BET])
    (hc : s1.cards.get p = s2.cards.get q) :
    get_info_set s1 p = (s1.cards.get p).str ++ ".BET" ∧
    get_info_set s2 q = (s2.cards.get q).str ++ ".BET" ∧
    get_info_set s1 p = get_info_set s2 q ∧
    get_strategy (get_info_set s1 p) =
      get_p2_facing_bet (s1.cards.get p).str ∧
    get_strategy (get_info_set s2 q) =
      get_p2_facing_bet (s1.cards.get p).str := by
  have e1 : get_info_set s1 p = (s1.cards.get p).str ++ ".BET" := by
    simp [get_info_set, h1]
  have e2 : get_info_set s2 q = (s2.cards.get q).str ++ ".BET" := by
    simp [get_info_set, h2]
  have e12 : get_info_set s1 p = get_info_set s2 q := by
    rw [e1, e2, hc]
  have e3 : get_strategy (get_info_set s1 p) =
      get_p2_facing_bet (s1.cards.get p).str := by
    rw [e1]
    cases s1.cards.get p <;> rfl
  exact ⟨e1, e2, e12, e3, by rw [← e12]; exact e3⟩

/-- Concrete instance discharging claim C8's hypotheses: seat 1 holding the
Queen sees the same key after an immediate BET as after CHECK-BET. -/
theorem C8_info_set_collapse_witness :
    get_info_set stateAfterBet 1 = get_info_set stateCheckBet 1 :=
  (C8_info_set_collapse stateAfterBet stateCheckBet 1 1 rfl rfl rfl).2.2.1

theorem cons_getD_mem (x : String) (xs : List String) (i : Nat) (d : String) :
    (x :: xs).getD (i % (x :: xs).length) d ∈ x :: xs := by
  have hlt : i % (x :: xs).length < (x :: xs).length := Nat.mod_lt _ (by simp)
  rw [List.getD_eq_getElem _ _ hlt]
  exact List.getElem_mem hlt

theorem choose_action_eq (state : GameState) (legal_actions : List String)
    (player_position : Int) (idx : Nat) (strat : List (String × ℚ))
    (h : get_strategy (get_info_set state player_position) = Except.ok strat) :
    choose_action state legal_actions player_position idx =
      (let legal_strategy :=
        strat.filter (fun ap => decide (ap.1 ∈ legal_actions))
       if legal_strategy.isEmpty then
         match legal_actions with
         | [] => Except.error GameError.emptyChoice
         | x :: xs => Except.ok ((x :: xs).getD (idx % (x :: xs).length) x)
       else
         if (legal_strategy.map Prod.snd).sum = 0 then
           Except.error GameError.divisionByZero
         else Except.ok ((legal_strategy.map Prod.fst).getD
           (idx % legal_strategy.length) "")) := by
  unfold choose_action
  rw [h]

/-- Claim C10 as stated is refuted: at a fresh hand holding the King the
oracle's positive-probability support is only BET, disjoint from the legal
list ["CHECK"]; the claim would have the agent fall back to a uniform choice
among the legal actions, but since the zero-probability key "CHECK" is still
in the distribution dict the code instead normalises over a total weight of
zero and raises a ZeroDivisionError. -/
theorem C10_choose_action_cex :
    get_strategy (get_info_set stateStartKQ 0) =
      Except.ok [("CHECK", (0:ℚ)), ("BET", 1)] ∧
    choose_action stateStartKQ ["CHECK"] 0 0 =
      Except.error GameError.divisionByZero := by
  refine ⟨rfl, ?_⟩
  rw [choose_action_eq stateStartKQ ["CHECK"] 0 0
    [("CHECK", (0:ℚ)), ("BET", 1)] rfl]
  norm_num [List.filter, show (decide ("BET" = "CHECK")) = false from rfl]

/-- Claim C10, amended: whenever `choose_action` returns at all it returns a
member of the supplied legal-action list — an out-of-range action is never
returned — and the uniform-random fallback occurs exactly when no key of the
oracle's distribution (zero-probability keys included) is legal; when some
key is legal but the restricted weights total zero, the renormalisation
raises instead of returning. -/
theorem C10_choose_action_amended (state : GameState)
    (legal_actions : List String) (pos : Int) (idx : Nat) :
    (∀ a, choose_action state legal_actions pos idx = Except.ok a →
      a ∈ legal_actions) ∧
    (∀ strat, get_strategy (get_info_set state pos) = Except.ok strat →
      strat.filter (fun ap => decide (ap.1 ∈ legal_actions)) = [] →
      legal_actions ≠ [] →
      ∃ a, choose_action state legal_actions pos idx = Except.ok a ∧
        a ∈ legal_actions) := by
  constructor
  · intro a h
    cases hs : get_strategy (get_info_set state pos) with
    | error e =>
      unfold choose_action at h
      rw [hs] at h
      exact absurd h (by simp)
    | ok strat =>
      rw [choose_action_eq state legal_actions pos idx strat hs] at h
      set ls := strat.filter (fun ap => decide (ap.1 ∈ legal_actions)) with hls
      by_cases he : ls.isEmpty
      · rw [if_pos he] at h
        cases hl : legal_actions with
        | nil =>
          rw [hl] at h
          exact absurd h (by simp)
        | cons x xs =>
          rw [hl] at h
          injection h with h
          rw [← h]
          exact cons_getD_mem x xs idx x
      · rw [if_neg he] at h
        by_cases h0 : (ls.map Prod.snd).sum = 0
        · rw [if_pos h0] at h
          exact absurd h (by simp)
        · rw [if_neg h0] at h
          injection h with h
          have hlen : 0 < ls.length := by
            rcases Nat.eq_zero_or_pos ls.length with hz | hp
            · rw [List.length_eq_zero.mp hz] at he
              exact absurd rfl he
            · exact hp
          have hidx : idx % ls.length < ls.length := Nat.mod_lt _ hlen
          have hidx2 : idx % ls.length < (ls.map Prod.fst).length := by
            simpa using hidx
          rw [List.getD_eq_getElem _ _ hidx2] at h
          simp only [List.getElem_map] at h
          rw [← h]
          have hm : ls[idx % ls.length] ∈ ls := List.getElem_mem hidx
          obtain ⟨-, hp⟩ := List.mem_filter.mp hm
          exact of_decide_eq_true hp
  · intro strat hs hfe hne
    rw [choose_action_eq state legal_actions pos idx strat hs]
    rw [hfe]
    cases hl : legal_actions with
    | nil => exact absurd hl hne
    | cons x xs =>
      exact ⟨_, rfl, cons_getD_mem x xs idx x⟩

/-- Concrete instance discharging amended claim C10's hypotheses: with the
King at a fresh hand and both actions legal, the sampled action is CHECK,
which the amended theorem confirms is in the legal list. -/
theorem C10_choose_action_amended_witness :
    choose_action stateStartKQ ["CHECK", "BET"] 0 0 = Except.ok "CHECK" ∧
    ("CHECK" : String) ∈ ["CHECK", "BET"] := by
  have h : choose_action stateStartKQ ["CHECK", "BET"] 0 0 =
      Except.ok "CHECK" := by
    rw [choose_action_eq stateStartKQ ["CHECK", "BET"] 0 0
      [("CHECK", (0:ℚ)), ("BET", 1)] rfl]
    norm_num [List.filter]
  exact ⟨h, (C10_choose_action_amended stateStartKQ ["CHECK", "BET"] 0 0).1
    "CHECK" h⟩

theorem play_loop_ok {fuel : Nat} {pick : GameState → Action}
    {s t : GameState}
    (hs : s.is_terminal = true →
      s.payoffs.map (fun p => p.p0 + p.p1) = some 0)
    (h : play_loop fuel pick s = Except.ok t) :
    t.is_terminal = true ∧
    t.payoffs.map (fun p => p.p0 + p.p1) = some 0 := by
  induction fuel generalizing s with
  | zero =>
    unfold play_loop at h
    split at h
    · rename_i hterm2
      injection h with h
      subst h
      exact ⟨hterm2, hs hterm2⟩
    · exact absurd h (by simp)
  | succ m ih =>
    unfold play_loop at h
    split at h
    · rename_i hterm2
      injection h with h
      subst h
      exact ⟨hterm2, hs hterm2⟩
    · split at h
      · exact absurd h (by simp)
      · rename_i s2 ha
        obtain ⟨-, -, -, -, -, htp⟩ := apply_ok_anatomy ha
        exact ih (fun hx => (htp hx).2) h

theorem play_hand_zero_sum {pick : GameState → Action} {deal : Cards}
    {pay : Payoffs} (h : play_hand pick deal = Except.ok pay) :
    pay.p0 + pay.p1 = 0 := by
  unfold play_hand at h
  split at h
  · exact absurd h (by simp)
  · rename_i final hloop
    obtain ⟨hterm, hmap⟩ :=
      play_loop_ok (by intro hx; simp [start_hand_state] at hx) hloop
    cases hpo : final.payoffs with
    | none =>
      rw [hpo] at hmap
      exact absurd hmap (by simp)
    | some p =>
      rw [hpo] at hmap
      simp at hmap
      have h0 : get_payoff final 0 = Except.ok p.p0 := by
        simp [get_payoff, hterm, hpo, Payoffs.get]
      have h1 : get_payoff final 1 = Except.ok p.p1 := by
        simp [get_payoff, hterm, hpo, Payoffs.get]
      rw [h0, h1] at h
      simp only [Except.ok.injEq] at h
      rw [← h]
      exact hmap

theorem update_profits_sum (f : String → Int) (n1 n2 : String) (d1 d2 : Int)
    (hne : n1 ≠ n2) :
    update_profits (update_profits f n1 d1) n2 d2 n1 +
      update_profits (update_profits f n1 d1) n2 d2 n2 =
    f n1 + f n2 + (d1 + d2) := by
  simp [update_profits, hne, Ne.symm hne]
  try ring

theorem run_hand_update_sum {agent1 agent2 : Agent} {deals : Nat → Cards}
    {hand_num : Nat} {profits p2 : String → Int}
    (hne : agent1.name ≠ agent2.name)
    (h : run_hand_update agent1 agent2 deals hand_num profits =
      Except.ok p2) :
    p2 agent1.name + p2 agent2.name =
      profits agent1.name + profits agent2.name := by
  unfold run_hand_update at h
  split at h
  · exact absurd h (by simp)
  · rename_i pay hpay
    injection h with h
    subst h
    have hzs : pay.get 0 + pay.get 1 = 0 := by
      simpa [Payoffs.get] using play_hand_zero_sum hpay
    by_cases hpar : hand_num % 2 = 0
    · simp only [seat_agents, if_pos hpar]
      rw [update_profits_sum profits agent1.name agent2.name _ _ hne, hzs]
      ring
    · simp only [seat_agents, if_neg hpar]
      have hswap := update_profits_sum profits agent2.name agent1.name
        (pay.get 0) (pay.get 1) (Ne.symm hne)
      rw [hzs] at hswap
      rw [add_comm (update_profits _ _ _ agent1.name)]
      rw [hswap]
      ring

/-- Claim C7: the tournament seats agent1 at seat 0 on even hand numbers and
agent2 there on odd ones, accumulates hand payoffs into the name-keyed
profits dict, and — for agents with distinct names — the two accumulated
profits sum to zero after every completed hand. -/
theorem C7_tournament (agent1 agent2 : Agent) (deals : Nat → Cards)
    (hne : agent1.name ≠ agent2.name) :
    (∀ i, i % 2 = 0 → seat_agents agent1 agent2 i = (agent1, agent2)) ∧
    (∀ i, i % 2 = 1 → seat_agents agent1 agent2 i = (agent2, agent1)) ∧
    (∀ n p, profits_after agent1 agent2 deals n = Except.ok p →
      p agent1.name + p agent2.name = 0) := by
  refine ⟨fun i hi => by rw [seat_agents, if_pos hi],
    fun i hi => by rw [seat_agents, if_neg (by omega)], ?_⟩
  intro n
  induction n with
  | zero =>
    intro p hp
    unfold profits_after at hp
    injection hp with hp
    subst hp
    simp
  | succ m ih =>
    intro p hp
    unfold profits_after at hp
    split at hp
    · exact absurd hp (by simp)
    · rename_i q hq
      rw [run_hand_update_sum hne hp]
      exact ih q hq

/-- Concrete instance discharging claim C7's hypotheses: two always-checking
agents named A and B over two K-vs-Q hands end with profits summing to 0. -/
theorem C7_tournament_witness :
    (profits_after agentA agentB dealsKQ 2).map
      (fun p => p "A" + p "B") = Except.ok 0 := by
  have hok : except_is_ok (profits_after agentA agentB dealsKQ 2) = true := by
    decide
  cases hp : profits_after agentA agentB dealsKQ 2 with
  | error e =>
    rw [hp] at hok
    exact absurd hok (by simp [except_is_ok])
  | ok p =>
    have hsum := (C7_tournament agentA agentB dealsKQ (by decide)).2.2 2 p hp
    simpa [Except.map, agentA, agentB] using hsum

/-- Claim C9: an engine construction with an explicit seed overwrites the
generator's hidden state, so for any deterministic pseudo-random
implementation two engines constructed with the same seed produce the same
deal sequence — independent of whatever generator state preceded each
construction — and driving those identical deals with the same
deterministic strategy yields identical hand outcomes. -/
theorem C9_seed_determinism {σ : Type} (R : RNGImpl σ) (seed : Nat) (n : Nat)
    (g1 g2 : σ) (pick : GameState → Action) :
    deal_seq R n (engine_init R (some seed) g1) =
      deal_seq R n (engine_init R (some seed) g2) ∧
    (deal_seq R n (engine_init R (some seed) g1)).map
        (fun d => d.map (play_hand pick)) =
      (deal_seq R n (engine_init R (some seed) g2)).map
        (fun d => d.map (play_hand pick)) := by
  have h : engine_init R (some seed) g1 = engine_init R (some seed) g2 := rfl
  rw [h]
  exact ⟨rfl, rfl⟩

end KuhnPoker
